import Mathlib

/-!
Shallow embedding of the rustysynth MIDI decoder core
(`src/rustysynth/src/midifile.rs`, `src/rustysynth/src/midi_render.rs`,
`src/rustysynth/src/zone_info.rs`), together with theorems settling the
frozen claims about it.

Modelling conventions:
* Byte streams are `List Nat`; every byte read is masked with `% 256`
  (a Rust `u8` is produced by the reader by construction).
* Rust `i32` arithmetic is modelled on `Int` with explicit two's-complement
  wrapping (`wrap32`, `toSigned32`); `usize` casts use `asUsize`
  (reduction modulo `2 ^ 64`).  Overflowing `i32` arithmetic in Rust release
  builds wraps; that wrapping semantics is what is embedded.
* `f64` arithmetic of `cast_delta` is modelled exactly over `ℚ`
  (division by zero is `0` in `ℚ`; at every point reachable in this code the
  `f64` computation and the `ℚ` computation agree on the stated properties,
  see the comment at `castDelta`).
* Fallible code returns `Except`/`Option`; a Rust panic (`unwrap`,
  out-of-bounds indexing) is modelled by a dedicated error value.
* Bit operations whose operands are provably in disjoint ranges
  (`(a << 16) | (b << 8) | c` on 8-bit fields, big-endian byte assembly)
  are written with `*`/`+`/`/`/`%` so that the definitions reduce and
  `omega` applies; each such site carries a comment quoting the source form.
* `BinaryReader` and the SoundFont `read_u16` are not part of the given
  sources (only `read_counter.rs` is); they are modelled from the
  specification, see the doc comments on `readVarlen` and `readU16ChunkLE`.
-/

namespace RustySynth

/-- Interpret a `Nat` below `2 ^ 32` as a two's-complement `i32` value. -/
def toSigned32 (n : Nat) : Int :=
  if n < 2147483648 then (n : Int) else (n : Int) - 4294967296

/-- Wrapping `i32` arithmetic: reduce an integer into `[-2^31, 2^31)`. -/
def wrap32 (i : Int) : Int :=
  toSigned32 ((i % 4294967296).toNat)

/-- Interpret a `Nat` below `2 ^ 16` as a two's-complement `i16` value. -/
def toSigned16 (n : Nat) : Int :=
  if n < 32768 then (n : Int) else (n : Int) - 65536

/-- Rust `as usize` on an integer value (two's-complement, 64-bit). -/
def asUsize (i : Int) : Nat :=
  (i % 18446744073709551616).toNat

/-- Rust `for _ in 0..n` iteration count for an `i32` bound `n`
(no iterations when `n ≤ 0`). -/
def itCount (i : Int) : Nat := i.toNat

/-- The loop-extension dialect selector (`MidiFileLoopType`). -/
inductive MidiFileLoopType where
  | loopPoint (tick : Nat)
  | rpgMaker
  | incredibleMachine
  | finalFantasy
deriving DecidableEq, Repr

/-- The error type (`MidiFileError`).  Payloads that matter to the claims
(`UnsupportedFormat`'s value) are kept; the chunk-tag / file-position
payloads of the other variants are dropped.  `panicErr` models a Rust
panic (`unwrap` on `None`, out-of-bounds index). -/
inductive MidiErr where
  | invalidChunkType
  | invalidChunkData
  | unsupportedFormat (value : Int)
  | invalidTempoValue
  | unexpectedEof
  | panicErr
deriving DecidableEq, Repr

/-- The 4-byte message record (`Message` in midifile.rs). -/
structure Message where
  channel : Nat
  command : Nat
  data1 : Nat
  data2 : Nat
deriving DecidableEq, Repr

namespace Message

/-- `Message::NORMAL`. -/
def NORMAL : Nat := 0
/-- `Message::TEMPO_CHANGE`. -/
def TEMPO_CHANGE : Nat := 252
/-- `Message::LOOP_START`. -/
def LOOP_START : Nat := 253
/-- `Message::LOOP_END`. -/
def LOOP_END : Nat := 254
/-- `Message::END_OF_TRACK`. -/
def END_OF_TRACK : Nat := 255

/-- `Message::common1`: one-data-byte channel message. -/
def common1 (status data1 : Nat) : Message :=
  { channel := status &&& 15, command := status &&& 240, data1 := data1, data2 := 0 }

/-- `Message::loop_start`. -/
def loop_start : Message :=
  { channel := 253, command := 0, data1 := 0, data2 := 0 }

/-- `Message::loop_end`. -/
def loop_end : Message :=
  { channel := 254, command := 0, data1 := 0, data2 := 0 }

/-- `Message::end_of_track`. -/
def end_of_track : Message :=
  { channel := 255, command := 0, data1 := 0, data2 := 0 }

/-- `Message::common2`: two-data-byte channel message, with the
loop-dialect rewriting of control-change (`command == 0xB0`) messages. -/
def common2 (status data1 data2 : Nat) (lt : MidiFileLoopType) : Message :=
  if status &&& 240 = 176 then
    match lt with
    | .rpgMaker =>
        if data1 = 111 then loop_start
        else { channel := status &&& 15, command := status &&& 240, data1 := data1, data2 := data2 }
    | .incredibleMachine =>
        if data1 = 110 then loop_start
        else if data1 = 111 then loop_end
        else { channel := status &&& 15, command := status &&& 240, data1 := data1, data2 := data2 }
    | .finalFantasy =>
        if data1 = 116 then loop_start
        else if data1 = 117 then loop_end
        else { channel := status &&& 15, command := status &&& 240, data1 := data1, data2 := data2 }
    | .loopPoint _ =>
        { channel := status &&& 15, command := status &&& 240, data1 := data1, data2 := data2 }
  else
    { channel := status &&& 15, command := status &&& 240, data1 := data1, data2 := data2 }

/-- `Message::tempo_change`: the 24-bit tempo payload is spread over
`(command, data1, data2)`.  Source: `(tempo >> 16) as u8`,
`(tempo >> 8) as u8`, `tempo as u8`; on the two's-complement image `u`
of the `i32` these are `u / 65536 % 256`, `u / 256 % 256`, `u % 256`. -/
def tempo_change (tempo : Int) : Message :=
  { channel := 252
    command := (tempo % 4294967296).toNat / 65536 % 256
    data1 := (tempo % 4294967296).toNat / 256 % 256
    data2 := (tempo % 4294967296).toNat % 256 }

/-- `Message::get_message_type`: classification by the `channel` field
(`match self.channel { 252 => …, 253 => …, 254 => …, 255 => …, _ => NORMAL }`). -/
def get_message_type (m : Message) : Nat :=
  if m.channel = 252 then 252
  else if m.channel = 253 then 253
  else if m.channel = 254 then 254
  else if m.channel = 255 then 255
  else 0

/-- `Message::get_tempo`: `60000000.0 / (((command as i32) << 16) |
(data1 << 8) | data2) as f64`.  The fields are 8-bit, so the bitwise-or of
the shifted fields is the sum `command * 65536 + data1 * 256 + data2`;
the `f64` division is modelled over `ℚ`. -/
def get_tempo (m : Message) : ℚ :=
  60000000 / ((m.command * 65536 + m.data1 * 256 + m.data2 : Nat) : ℚ)

end Message

/-! ## Byte reader (modelled from the spec)

`binary_reader.rs` is not among the given sources; the operations below are
modelled from spec §4.1 (Byte Reader): big-endian fixed-width integers,
`read_u8`, the SMF variable-length quantity "read bytes while MSB=1
accumulating 7-bit groups; … return as i32.  No explicit length cap", and
`discard(n)`; every short read fails (`UnexpectedEof`).  The reader is
state-passed: each operation returns the value and the remaining bytes. -/

/-- Modelled from the spec: `read_u8` of the missing `binary_reader.rs`. -/
def readU8 : List Nat → Option (Nat × List Nat)
  | [] => none
  | b :: r => some (b % 256, r)

/-- Modelled from the spec: `read_four_cc` of the missing `binary_reader.rs`. -/
def readFourCC : List Nat → Option (List Nat × List Nat)
  | a :: b :: c :: d :: r => some ([a % 256, b % 256, c % 256, d % 256], r)
  | _ => none

/-- Modelled from the spec: `read_i32_big_endian` of the missing
`binary_reader.rs` (big-endian assembly `b0*2^24 + b1*2^16 + b2*2^8 + b3`,
interpreted as `i32`). -/
def readI32BE : List Nat → Option (Int × List Nat)
  | a :: b :: c :: d :: r =>
      some (toSigned32 ((a % 256) * 16777216 + (b % 256) * 65536 + (c % 256) * 256 + (d % 256)), r)
  | _ => none

/-- Modelled from the spec: `read_i16_big_endian` of the missing
`binary_reader.rs`. -/
def readI16BE : List Nat → Option (Int × List Nat)
  | a :: b :: r => some (toSigned16 ((a % 256) * 256 + (b % 256)), r)
  | _ => none

/-- Modelled from the spec: `read_u16_big_endian` of the missing
`binary_reader.rs`. -/
def readU16BE : List Nat → Option (Nat × List Nat)
  | a :: b :: r => some ((a % 256) * 256 + (b % 256), r)
  | _ => none

/-- Modelled from the spec: `discard_data(n)` of the missing
`binary_reader.rs`: advance `n` bytes, failing on a short read. -/
def discardN (n : Nat) (l : List Nat) : Option (List Nat) :=
  if n ≤ l.length then some (l.drop n) else none

/-- Modelled from the spec: the accumulator loop of
`read_i32_variable_length` of the missing `binary_reader.rs`.
Source form of the accumulation (spec §4.1): shift the `i32` accumulator
left by 7 and or in the low 7 bits of the byte; the or targets the zeroed
low bits, so on the 32-bit image it is `(acc * 128) % 2^32 + (b &&& 127)`.
No length cap (spec: "No explicit length cap"). -/
def readVarlenAux : List Nat → Nat → Option (Nat × List Nat)
  | [], _ => none
  | b :: r, acc =>
      if (b % 256) &&& 128 = 0 then some ((acc * 128) % 4294967296 + ((b % 256) &&& 127), r)
      else readVarlenAux r ((acc * 128) % 4294967296 + ((b % 256) &&& 127))

/-- Modelled from the spec: `read_i32_variable_length` of the missing
`binary_reader.rs`; the accumulated 32-bit value is returned as `i32`. -/
def readVarlen (l : List Nat) : Option (Int × List Nat) :=
  match readVarlenAux l 0 with
  | none => none
  | some (n, r) => some (toSigned32 n, r)

/-- `MidiFile::read_tempo`: varlen length (must be 3), then 3 bytes of
microseconds-per-quarter-note, assembled big-endian
(`(b1 << 16) | (b2 << 8) | b3` on byte values `= b1*65536 + b2*256 + b3`). -/
def readTempo (l : List Nat) : Except MidiErr (Int × List Nat) :=
  match readVarlen l with
  | none => .error .unexpectedEof
  | some (sz, r) =>
      if sz = 3 then
        match r with
        | b1 :: b2 :: b3 :: r2 =>
            .ok ((((b1 % 256) * 65536 + (b2 % 256) * 256 + (b3 % 256) : Nat) : Int), r2)
        | _ => .error .unexpectedEof
      else .error .invalidTempoValue

/-- `MidiFile::discard_data`: read a varlen size and skip that many bytes
(the `i32` size is converted `as usize`). -/
def discardVarData (l : List Nat) : Option (List Nat) :=
  match readVarlen l with
  | none => none
  | some (sz, r) => discardN (asUsize sz) r

/-- The FourCC `"MThd"`. -/
def mthdTag : List Nat := [77, 84, 104, 100]

/-- The FourCC `"MTrk"`. -/
def mtrkTag : List Nat := [77, 84, 114, 107]

/-- The event loop of `MidiFile::read_track` (midifile.rs lines 334-387).

State: remaining `bytes`, the declared payload `size` (as `usize`), the
constant `total` = payload length at loop entry (so that the byte counter
of `ReadCounter`, `bytes_read()`, is `total - bytes.length`), the current
`tick` (`i32`, wrapping), `lastStatus`, and the accumulated `events`.

`ghost` is an instrumentation flag not present in the source: it stays
`true` exactly while every decoded delta is non-negative and no tick
addition leaves the `i32` range, i.e. while `wrap32` acts as the identity
on every tick computation.  It does not influence any computed value.

`fuel` bounds the recursion (each iteration consumes at least two bytes,
so `bytes.length + 1` fuel can never be exhausted); running out of fuel
returns the same error as running out of bytes. -/
def readTrackLoop (lt : MidiFileLoopType) :
    Nat → List Nat → Nat → Nat → Int → Nat → List (Message × Int) → Bool →
    Except MidiErr (List (Message × Int) × List Nat × Bool)
  | 0, _, _, _, _, _, _, _ => .error .unexpectedEof
  | fuel + 1, bytes, size, total, tick, lastStatus, events, ghost =>
    match readVarlen bytes with
    | none => .error .unexpectedEof
    | some (delta, rest) =>
      match readU8 rest with
      | none => .error .unexpectedEof
      | some (first, r2) =>
        if first &&& 128 = 0 then
          -- running status: reuse lastStatus, do NOT update it (the
          -- source branch ends in `continue`, skipping `last_status = first`)
          if lastStatus &&& 240 = 192 ∨ lastStatus &&& 240 = 208 then
            readTrackLoop lt fuel r2 size total (wrap32 (tick + delta)) lastStatus
              (events ++ [(Message.common1 lastStatus first, wrap32 (tick + delta))])
              (ghost && decide (0 ≤ delta) && decide (tick + delta < 2147483648))
          else
            match readU8 r2 with
            | none => .error .unexpectedEof
            | some (d2, r3) =>
              readTrackLoop lt fuel r3 size total (wrap32 (tick + delta)) lastStatus
                (events ++ [(Message.common2 lastStatus first d2 lt, wrap32 (tick + delta))])
                (ghost && decide (0 ≤ delta) && decide (tick + delta < 2147483648))
        else if first = 240 ∨ first = 247 then
          -- SysEx: skip
          match discardVarData r2 with
          | none => .error .unexpectedEof
          | some r3 =>
            readTrackLoop lt fuel r3 size total (wrap32 (tick + delta)) first events
              (ghost && decide (0 ≤ delta) && decide (tick + delta < 2147483648))
        else if first = 255 then
          match readU8 r2 with
          | none => .error .unexpectedEof
          | some (meta, r3) =>
            if meta = 47 then
              -- end of track: read the length byte, emit END_OF_TRACK,
              -- discard trailing bytes up to the declared size, return
              match readU8 r3 with
              | none => .error .unexpectedEof
              | some (_len, r4) =>
                if total - r4.length < size then
                  match discardN (size - (total - r4.length)) r4 with
                  | none => .error .unexpectedEof
                  | some r5 =>
                    .ok (events ++ [(Message.end_of_track, wrap32 (tick + delta))], r5,
                      ghost && decide (0 ≤ delta) && decide (tick + delta < 2147483648))
                else
                  .ok (events ++ [(Message.end_of_track, wrap32 (tick + delta))], r4,
                    ghost && decide (0 ≤ delta) && decide (tick + delta < 2147483648))
            else if meta = 81 then
              -- set tempo
              match readTempo r3 with
              | .error e => .error e
              | .ok (tempo, r4) =>
                readTrackLoop lt fuel r4 size total (wrap32 (tick + delta)) first
                  (events ++ [(Message.tempo_change tempo, wrap32 (tick + delta))])
                  (ghost && decide (0 ≤ delta) && decide (tick + delta < 2147483648))
            else
              -- other meta: skip
              match discardVarData r3 with
              | none => .error .unexpectedEof
              | some r4 =>
                readTrackLoop lt fuel r4 size total (wrap32 (tick + delta)) first events
                  (ghost && decide (0 ≤ delta) && decide (tick + delta < 2147483648))
        else
          -- genuine channel status byte
          if first &&& 240 = 192 ∨ first &&& 240 = 208 then
            match readU8 r2 with
            | none => .error .unexpectedEof
            | some (d1, r3) =>
              readTrackLoop lt fuel r3 size total (wrap32 (tick + delta)) first
                (events ++ [(Message.common1 first d1, wrap32 (tick + delta))])
                (ghost && decide (0 ≤ delta) && decide (tick + delta < 2147483648))
          else
            match readU8 r2 with
            | none => .error .unexpectedEof
            | some (d1, r3) =>
              match readU8 r3 with
              | none => .error .unexpectedEof
              | some (d2, r4) =>
                readTrackLoop lt fuel r4 size total (wrap32 (tick + delta)) first
                  (events ++ [(Message.common2 first d1 d2 lt, wrap32 (tick + delta))])
                  (ghost && decide (0 ≤ delta) && decide (tick + delta < 2147483648))

/-- `MidiFile::read_track`, full result: the parsed events, the bytes
remaining after the chunk, and the instrumentation flag of
`readTrackLoop`.  Reads the `MTrk` tag and the chunk size, then runs the
event loop (the byte `first` consumed in the loop is already masked to a
`u8` by `readU8`-style masking in `readVarlen`/list access, so the loop
masks data bytes at their use sites). -/
def readTrackCore (bytes : List Nat) (lt : MidiFileLoopType) :
    Except MidiErr (List (Message × Int) × List Nat × Bool) :=
  match readFourCC bytes with
  | none => .error .unexpectedEof
  | some (tag, r1) =>
    if tag = mtrkTag then
      match readI32BE r1 with
      | none => .error .unexpectedEof
      | some (sz, r2) =>
        readTrackLoop lt (r2.length + 1) r2 (asUsize sz) r2.length 0 0 [] true
    else .error .invalidChunkType

/-- `MidiFile::read_track` as in the source: the event list. -/
def read_track (bytes : List Nat) (lt : MidiFileLoopType) :
    Except MidiErr (List (Message × Int)) :=
  (readTrackCore bytes lt).map (fun r => r.1)

/-- The bytes remaining after `read_track` consumed its chunk (the reader
position after the call; used by the sequential track scan of
`ThreadedRender::new`). -/
def readTrackRest (bytes : List Nat) (lt : MidiFileLoopType) :
    Except MidiErr (List Nat) :=
  (readTrackCore bytes lt).map (fun r => r.2.1)

/-- `true` iff `read_track` succeeds and no tick computation of the run
wrapped (every decoded delta was non-negative and every tick sum stayed
below `2 ^ 31`). -/
def readTrackWrapFree (bytes : List Nat) (lt : MidiFileLoopType) : Bool :=
  match readTrackCore bytes lt with
  | .ok r => r.2.2
  | .error _ => false

/-! ## Track index, tempo fusion, delta casting (midifile.rs) -/

/-- `MidiFile::track_addr`: scan `track_count` chunks, checking each
`MTrk` tag, recording `(offset, size + 8)` and skipping the payload. -/
def trackAddrLoop : Nat → List Nat → Nat → Except MidiErr (List (Nat × Nat))
  | 0, _, _ => .ok []
  | n + 1, bytes, index =>
    match readFourCC bytes with
    | none => .error .unexpectedEof
    | some (tag, r1) =>
      if tag = mtrkTag then
        match readI32BE r1 with
        | none => .error .unexpectedEof
        | some (sz, r2) =>
          match discardN (asUsize sz) r2 with
          | none => .error .unexpectedEof
          | some r3 =>
            match trackAddrLoop n r3 (index + (asUsize sz + 8)) with
            | .error e => .error e
            | .ok rest => .ok ((index, asUsize sz + 8) :: rest)
      else .error .invalidChunkType

/-- Sequence a list of results left to right, failing on the first error. -/
def collectSeq : List (Except MidiErr (List (Message × Int))) →
    Except MidiErr (List (List (Message × Int)))
  | [] => .ok []
  | x :: xs =>
    match x with
    | .error e => .error e
    | .ok t =>
      match collectSeq xs with
      | .error e => .error e
      | .ok ts => .ok (t :: ts)

/-- The collection loop of `MidiFile::new_with_loop_type`
(`while let Some(track) = tracks_result.pop() { tracks.push(track?) }`):
elements are taken from the END of the result vector, so the collected
list is the reverse of the input and the error of the last element (in
input order) wins. -/
def reverseCollect (l : List (Except MidiErr (List (Message × Int)))) :
    Except MidiErr (List (List (Message × Int))) :=
  collectSeq l.reverse

/-- Whether a parsed track contains a `TEMPO_CHANGE`
(`x.iter().any(|(y, _)| y.get_message_type() == Message::TEMPO_CHANGE)`). -/
def hasTempo (t : List (Message × Int)) : Bool :=
  t.any (fun e => e.1.get_message_type == 252)

/-- Insert an event into a tick-sorted list, before the first element with
an equal or larger tick (stable insertion). -/
def insertByTick (e : Message × Int) : List (Message × Int) → List (Message × Int)
  | [] => [e]
  | x :: xs => if x.2 < e.2 then x :: insertByTick e xs else e :: x :: xs

/-- Sort a track by tick ascending.  The source calls library sorts
(`sort_unstable_by(|a, b| a.1.cmp(&b.1))` in `MidiFile::new_with_loop_type`,
the stable `par_sort_by` in `ThreadedRender::render`); both produce a
tick-sorted permutation of the input, here modelled by a structurally
recursive stable insertion sort. -/
def sortByTick (l : List (Message × Int)) : List (Message × Int) :=
  l.foldr insertByTick []

/-- The tempo-fusion step of `MidiFile::new_with_loop_type`
(lines 227-241): collect all tracks containing a tempo change, and if any
exists, extend EVERY track (`tracks.par_iter_mut().for_each`) with the
events of the first collected one and sort it by tick. -/
def fuseTempo (tracks : List (List (Message × Int))) : List (List (Message × Int)) :=
  match (tracks.filter hasTempo).head? with
  | some sel => tracks.map (fun x => sortByTick (x ++ sel))
  | none => tracks

/-- The fusion step of `ThreadedRender::render` (midi_render.rs lines
115-117): extend one parsed track with the shared tempo map and sort it by
tick with the stable `par_sort_by`. -/
def renderFuse (track tempoMap : List (Message × Int)) : List (Message × Int) :=
  sortByTick (track ++ tempoMap)

/-- The loop-point injection of `MidiFile::new_with_loop_type` (lines
243-260): for `LoopPoint(p)` with `p ≠ 0`, insert a `LOOP_START` into
`tracks[0]` before the first event with tick `≥ p`, or append it.
Indexing `tracks[0]` on an empty vector and `last().unwrap()` on an empty
track are panics. -/
def insertLoopPoint (lt : MidiFileLoopType)
    (tracks : List (List (Message × Int))) :
    Except MidiErr (List (List (Message × Int))) :=
  match lt with
  | .loopPoint p =>
    if p ≠ 0 then
      match tracks with
      | [] => .error .panicErr
      | t0 :: rest =>
        match t0.getLast? with
        | none => .error .panicErr
        | some lastEv =>
          if toSigned32 (p % 4294967296) ≤ lastEv.2 then
            .ok (insertByLoopPoint (toSigned32 (p % 4294967296)) t0 :: rest)
          else
            .ok ((t0 ++ [(Message.loop_start, toSigned32 (p % 4294967296))]) :: rest)
    else .ok tracks
  | _ => .ok tracks
where
  /-- `for i in 0..track.len() { if track[i].1 >= loop_point { insert; break } }`. -/
  insertByLoopPoint (lp : Int) : List (Message × Int) → List (Message × Int)
    | [] => []
    | x :: xs =>
      if lp ≤ x.2 then (Message.loop_start, lp) :: x :: xs
      else x :: insertByLoopPoint lp xs

/-- A `MidiTrack`: parallel `messages` / `times` arrays (times in seconds,
`f64` modelled over `ℚ`). -/
structure MidiTrackL where
  messages : List Message
  times : List ℚ
deriving DecidableEq, Repr

/-- `MidiTrack::get_length`: `*self.times.last().unwrap()` — the last time
stamp; the `unwrap` panics on an empty `times`, modelled by `none`. -/
def MidiTrackL.get_length (t : MidiTrackL) : Option ℚ :=
  t.times.getLast?

/-- The loop of `MidiFile::cast_delta`: walk the events left to right
keeping `(current_tick, current_time, tempo)`; a `TEMPO_CHANGE` updates the
tempo and is dropped, everything else is emitted with its time stamp.
`f64` note: over `ℚ`, `60 / 0 = 0`, matching the only reachable `f64`
degeneracy (`μspq = 0` gives `tempo = +∞` in `f64` and the next
`delta_time` is `60 / ∞ · dt = 0`; over `ℚ` the same chain gives
`tempo = 0` and `delta_time = 60 / 0 · dt = 0`). -/
def castDeltaLoop (resolution : Int) :
    List (Message × Int) → Int → ℚ → ℚ → List Message → List ℚ → MidiTrackL × ℚ
  | [], _, time, _, msgs, times => (⟨msgs, times⟩, time)
  | (m, nextTick) :: rest, curTick, time, tempo, msgs, times =>
    if m.get_message_type = 252 then
      castDeltaLoop resolution rest
        (wrap32 (curTick + wrap32 (nextTick - curTick)))
        (time + 60 / ((resolution : ℚ) * tempo) * ((wrap32 (nextTick - curTick) : Int) : ℚ))
        (m.get_tempo) msgs times
    else
      castDeltaLoop resolution rest
        (wrap32 (curTick + wrap32 (nextTick - curTick)))
        (time + 60 / ((resolution : ℚ) * tempo) * ((wrap32 (nextTick - curTick) : Int) : ℚ))
        tempo (msgs ++ [m])
        (times ++ [time + 60 / ((resolution : ℚ) * tempo) * ((wrap32 (nextTick - curTick) : Int) : ℚ)])

/-- `MidiFile::cast_delta` (midifile.rs lines 390-435): empty tracks map to
the empty `MidiTrack` with length 0; otherwise run the loop from
`tick = 0`, `time = 0`, default tempo 120 BPM. -/
def cast_delta (track : List (Message × Int)) (resolution : Int) : MidiTrackL × ℚ :=
  match track with
  | [] => (⟨[], []⟩, 0)
  | _ => castDeltaLoop resolution track 0 0 120 [] []

/-- `MidiFile::merge_tracks`: cast every track, the file length is the
maximum of the per-track lengths (`max_by` on `f64`, `None ↦ 0.0`). -/
def merge_tracks (tracks : List (List (Message × Int))) (resolution : Int) :
    List MidiTrackL × ℚ :=
  ((tracks.map (fun t => cast_delta t resolution)).map (fun p => p.1),
   match (tracks.map (fun t => cast_delta t resolution)).map (fun p => p.2) with
   | [] => 0
   | h :: t => t.foldl max h)

/-- The result of `MidiFile::new_with_loop_type`. -/
structure MidiFileR where
  tracks : List MidiTrackL
  length : ℚ
deriving DecidableEq, Repr

/-- The body of `MidiFile::new_with_loop_type` after the MThd header has
been parsed (midifile.rs lines 201-264): index the track chunks, parse each
chunk slice, collect by popping (reversing the order), fuse with the tempo
map, optionally inject the loop point, and cast deltas. -/
def midiFileBody (lt : MidiFileLoopType) (trackCount resolution : Int)
    (rest : List Nat) : Except MidiErr MidiFileR :=
  match trackAddrLoop (itCount trackCount) rest 0 with
  | .error e => .error e
  | .ok addrs =>
    match reverseCollect (addrs.map (fun a => read_track ((rest.drop a.1).take a.2) lt)) with
    | .error e => .error e
    | .ok tracks =>
      match insertLoopPoint lt (fuseTempo tracks) with
      | .error e => .error e
      | .ok tracks2 =>
        match merge_tracks tracks2 resolution with
        | (mts, len) => .ok ⟨mts, len⟩

/-- `MidiFile::new_with_loop_type` (midifile.rs lines 173-265): parse the
MThd header — tag, chunk size 6, format (must be exactly 1, line 194) —
then run the body on the remaining bytes. -/
def new_with_loop_type (bytes : List Nat) (lt : MidiFileLoopType) :
    Except MidiErr MidiFileR :=
  match readFourCC bytes with
  | none => .error .unexpectedEof
  | some (tag, r1) =>
    if tag = mthdTag then
      match readI32BE r1 with
      | none => .error .unexpectedEof
      | some (sz, r2) =>
        if sz = 6 then
          match readI16BE r2 with
          | none => .error .unexpectedEof
          | some (format, r3) =>
            if format = 1 then
              match readI16BE r3 with
              | none => .error .unexpectedEof
              | some (trackCount, r4) =>
                match readI16BE r4 with
                | none => .error .unexpectedEof
                | some (resolution, r5) => midiFileBody lt trackCount resolution r5
            else .error (.unsupportedFormat format)
        else .error .invalidChunkData
    else .error .invalidChunkType

/-! ## ThreadedRender (midi_render.rs) -/

/-- Parse tracks sequentially from a byte stream until `read_track` fails,
returning all parsed tracks in input order.  (Specification device for the
tempo scan below; same fuel discipline.) -/
def parseTracksFrom : Nat → List Nat → List (List (Message × Int))
  | 0, _ => []
  | fuel + 1, bytes =>
    match readTrackCore bytes (.loopPoint 0) with
    | .ok r => r.1 :: parseTracksFrom fuel r.2.1
    | .error _ => []

/-- The tempo-map scan of `ThreadedRender::new` (midi_render.rs lines
63-72): `while let Ok(track) = read_track(..)` — keep parsing tracks from
the current position; stop with the first one containing a tempo change;
`none` when the reads fail before any is found. -/
def scanTempo : Nat → List Nat → Option (List (Message × Int))
  | 0, _ => none
  | fuel + 1, bytes =>
    match readTrackCore bytes (.loopPoint 0) with
    | .ok r => if hasTempo r.1 then some r.1 else scanTempo fuel r.2.1
    | .error _ => none

/-- The fields of `ThreadedRender` that construction computes (the file
path, sound font, synthesizer settings and atomic counter are opaque
run-time resources and are not modelled). -/
structure RenderInfo where
  resolution : Int
  tempo_map : List (Message × Int)
  track_addr : List (Nat × Nat)
  track_count : Int
deriving DecidableEq, Repr

/-- The body of `ThreadedRender::new` after the MThd header has been
parsed (midi_render.rs lines 63-92): scan for the tempo map (failure is
`UnsupportedFormat(format)`), then re-open the file, seek past the 14
header bytes (`0xe`) and index the tracks. -/
def renderBody (format trackCount resolution : Int)
    (rest allBytes : List Nat) : Except MidiErr RenderInfo :=
  match scanTempo (rest.length + 1) rest with
  | none => .error (.unsupportedFormat format)
  | some tm =>
    match trackAddrLoop (itCount trackCount) (allBytes.drop 14) 0 with
    | .error e => .error e
    | .ok addrs => .ok ⟨resolution, tm, addrs, trackCount⟩

/-- `ThreadedRender::new` (midi_render.rs lines 32-93): parse the MThd
header — tag, chunk size 6, format ∈ {0, 1} (line 56), track count as u16 —
then run the body. -/
def threadedRenderNew (bytes : List Nat) : Except MidiErr RenderInfo :=
  match readFourCC bytes with
  | none => .error .unexpectedEof
  | some (tag, r1) =>
    if tag = mthdTag then
      match readI32BE r1 with
      | none => .error .unexpectedEof
      | some (sz, r2) =>
        if sz = 6 then
          match readI16BE r2 with
          | none => .error .unexpectedEof
          | some (format, r3) =>
            if format = 0 ∨ format = 1 then
              match readU16BE r3 with
              | none => .error .unexpectedEof
              | some (trackCount, r4) =>
                match readI16BE r4 with
                | none => .error .unexpectedEof
                | some (resolution, r5) =>
                  renderBody format (trackCount : Int) resolution r5 bytes
            else .error (.unsupportedFormat format)
        else .error .invalidChunkData
    else .error .invalidChunkType

/-! ## SoundFont zone list (zone_info.rs) -/

/-- The error type of `zone_info::read_from_chunk` (`Box<dyn Error>`
carrying a message, or an I/O error); `indexPanic` models the Rust panic
of an out-of-bounds vector index. -/
inductive ZoneErr where
  | invalidList
  | eof
  | indexPanic
deriving DecidableEq, Repr

/-- `ZoneInfo`. -/
structure ZoneInfo where
  generator_index : Int
  modulator_index : Int
  generator_count : Int
  modulator_count : Int
deriving DecidableEq, Repr

/-- Modelled from the spec: the SoundFont-side `binary_reader::read_u16`
is absent from the given sources; spec §4.1 documents a two-byte u16 read
(big-endian `read_u16_be`).  The claims about `read_from_chunk` are
independent of the byte order. -/
def readU16ChunkLE : List Nat → Option (Nat × List Nat)
  | a :: b :: r => some ((a % 256) * 256 + (b % 256), r)
  | _ => none

/-- `ZoneInfo::new`: two u16 reads giving the generator and modulator
indices; counts start at 0. -/
def zoneNew (bytes : List Nat) : Except ZoneErr (ZoneInfo × List Nat) :=
  match readU16ChunkLE bytes with
  | none => .error .eof
  | some (gi, r1) =>
    match readU16ChunkLE r1 with
    | none => .error .eof
    | some (mi, r2) =>
      .ok (⟨(gi : Int), (mi : Int), 0, 0⟩, r2)

/-- The reading loop of `read_from_chunk`: `count` zones in sequence. -/
def zonesReadLoop : Nat → List Nat → Except ZoneErr (List ZoneInfo × List Nat)
  | 0, bytes => .ok ([], bytes)
  | n + 1, bytes =>
    match zoneNew bytes with
    | .error e => .error e
    | .ok (z, r) =>
      match zonesReadLoop n r with
      | .error e => .error e
      | .ok (zs, r2) => .ok (z :: zs, r2)

/-- The count fix-up loop of `read_from_chunk`
(`for i in 0..(count - 1) as usize { zones[i].generator_count =
zones[i+1].generator_index - zones[i].generator_index; … }`).
`(count - 1) as usize` underflows for `count ≤ 0` to a huge bound `r`;
the loop reads `zones[i]` and `zones[i + 1]` for every `i < r`, which is
an out-of-bounds panic as soon as `r` exceeds the highest valid start
index (in particular for `count = 0`, where `zones` is empty and the
first iteration already indexes `zones[0]`). -/
def fixCounts (count : Int) (zones : List ZoneInfo) : Except ZoneErr (List ZoneInfo) :=
  if asUsize (count - 1) = 0 then .ok zones
  else if zones.length ≤ asUsize (count - 1) then .error .indexPanic
  else
    .ok (zones.mapIdx (fun i z =>
      if i < asUsize (count - 1) then
        { z with
          generator_count := ((zones.getD (i + 1) z).generator_index - z.generator_index)
          modulator_count := ((zones.getD (i + 1) z).modulator_index - z.modulator_index) }
      else z))

/-- `zone_info::read_from_chunk` (zone_info.rs lines 31-53): reject sizes
not divisible by 4, read `size / 4` zones, then fix up the counts. -/
def read_from_chunk (bytes : List Nat) (size : Int) : Except ZoneErr (List ZoneInfo) :=
  if size % 4 ≠ 0 then .error .invalidList
  else
    match zonesReadLoop (itCount (size / 4)) bytes with
    | .error e => .error e
    | .ok (zones, _) => fixCounts (size / 4) zones

/-! ## Concrete inputs used by the claim theorems -/

/-- Whether a parsed event is the `END_OF_TRACK` marker. -/
def isEOT (e : Message × Int) : Bool := e.1.get_message_type == 255

/-- An `MTrk` chunk: the tag, the payload size as 4 big-endian bytes
(assuming it is below 2^8, which all the concrete chunks here satisfy),
and the payload. -/
def mkTrk (payload : List Nat) : List Nat :=
  mtrkTag ++ [0, 0, 0, payload.length] ++ payload

/-- Spec S3 track bytes: payload `00 90 3C 7F 10 40 7F 10 80 3C 00`
followed by end-of-track `00 FF 2F 00`. -/
def s3bytes : List Nat :=
  mkTrk [0, 144, 60, 127, 16, 64, 127, 16, 128, 60, 0, 0, 255, 47, 0]

/-- Track bytes with two consecutive running-status events after a note-on:
`00 90 3C 7F | 00 45 7F | 00 47 7F | 00 FF 2F 00`. -/
def c1bytes : List Nat :=
  mkTrk [0, 144, 60, 127, 0, 69, 127, 0, 71, 127, 0, 255, 47, 0]

/-- Track bytes with nine program-change events, each preceded by the
maximal 4-byte delta `FF FF FF 7F` (`0x0FFFFFFF` ticks): the ninth tick
sum exceeds `2^31 - 1` and wraps negative. -/
def c7bytes : List Nat :=
  mkTrk ([255, 255, 255, 127, 192, 0] ++ [255, 255, 255, 127, 192, 0] ++
         [255, 255, 255, 127, 192, 0] ++ [255, 255, 255, 127, 192, 0] ++
         [255, 255, 255, 127, 192, 0] ++ [255, 255, 255, 127, 192, 0] ++
         [255, 255, 255, 127, 192, 0] ++ [255, 255, 255, 127, 192, 0] ++
         [255, 255, 255, 127, 192, 0] ++ [0, 255, 47, 0])

/-- The events `read_track` produces from `c7bytes`. -/
def c7events : List (Message × Int) :=
  [(⟨0, 192, 0, 0⟩, 268435455), (⟨0, 192, 0, 0⟩, 536870910),
   (⟨0, 192, 0, 0⟩, 805306365), (⟨0, 192, 0, 0⟩, 1073741820),
   (⟨0, 192, 0, 0⟩, 1342177275), (⟨0, 192, 0, 0⟩, 1610612730),
   (⟨0, 192, 0, 0⟩, 1879048185), (⟨0, 192, 0, 0⟩, 2147483640),
   (⟨0, 192, 0, 0⟩, -1879048201), (⟨255, 0, 0, 0⟩, -1879048201)]

/-- A minimal spec-S1-style track: a tempo change (`07 A1 20` = 500000)
and end-of-track. -/
def s1track : List Nat :=
  mkTrk [0, 255, 81, 3, 7, 161, 32, 0, 255, 47, 0]

/-- A complete format-1 file with one track and no tempo change anywhere. -/
def noTempoFile : List Nat :=
  mthdTag ++ [0, 0, 0, 6, 0, 1, 0, 1, 1, 224] ++ mkTrk [0, 255, 47, 0]

/-- A complete, otherwise valid format-0 file whose single track is a
tempo track. -/
def f0file : List Nat :=
  mthdTag ++ [0, 0, 0, 6, 0, 0, 0, 1, 1, 224] ++ s1track

/-- A parsed tempo-only track (tempo 500000 at tick 0). -/
def tempoTrackA : List (Message × Int) :=
  [(Message.tempo_change 500000, 0), (Message.end_of_track, 0)]

/-- A second parsed tempo-only track (tempo 1000000 at tick 0). -/
def tempoTrackB : List (Message × Int) :=
  [(Message.tempo_change 1000000, 0), (Message.end_of_track, 0)]

/-- Spec S4 raw track: 120 BPM (μspq 500000) at tick 0, 60 BPM
(μspq 1000000) at tick 480, a note event at tick 960. -/
def s4track : List (Message × Int) :=
  [(Message.tempo_change 500000, 0), (Message.tempo_change 1000000, 480),
   (Message.common1 192 5, 960)]

/-- A raw track with non-decreasing but partly negative `i32` ticks: the
tick span from `-2^31` to `0` does not fit in `i32`. -/
def c8track : List (Message × Int) :=
  [(Message.common1 144 60, -2147483648), (Message.common1 144 62, 0)]

/-- What an `.ok` result of `readTrackLoop` satisfies, relative to the
entry state `(tick, acc, g)`: the events extend `acc`; the last event is
`END_OF_TRACK`; exactly one `END_OF_TRACK` is added; and if the
instrumentation flag survived, the flag was true at entry and tick
monotonicity is preserved. -/
def loopOkSpec (tick : Int) (acc ev : List (Message × Int)) (g wf : Bool) : Prop :=
  (∃ suf, ev = acc ++ suf) ∧
  (∃ t, ev.getLast? = some (Message.end_of_track, t)) ∧
  ev.countP isEOT = acc.countP isEOT + 1 ∧
  (wf = true → g = true ∧
    (-2147483648 ≤ tick →
      (∀ x ∈ acc, x.2 ≤ tick) →
      acc.Pairwise (fun a b : Message × Int => a.2 ≤ b.2) →
      ev.Pairwise (fun a b : Message × Int => a.2 ≤ b.2)))

/-! ## Arithmetic and message-classification lemmas -/

theorem wrap32_lb (i : Int) : -2147483648 ≤ wrap32 i := by
  unfold wrap32 toSigned32
  have h0 : 0 ≤ i % 4294967296 := Int.emod_nonneg i (by norm_num)
  have h1 : i % 4294967296 < 4294967296 := Int.emod_lt_of_pos i (by norm_num)
  split
  · omega
  · omega

theorem wrap32_ub (i : Int) : wrap32 i < 2147483648 := by
  unfold wrap32 toSigned32
  have h0 : 0 ≤ i % 4294967296 := Int.emod_nonneg i (by norm_num)
  have h1 : i % 4294967296 < 4294967296 := Int.emod_lt_of_pos i (by norm_num)
  split
  · omega
  · omega

theorem wrap32_eq_of (i : Int) (h1 : -2147483648 ≤ i) (h2 : i < 2147483648) :
    wrap32 i = i := by
  unfold wrap32 toSigned32
  split <;> omega

theorem mt_common1 (s d : Nat) : (Message.common1 s d).get_message_type = 0 := by
  have h : s &&& 15 ≤ 15 := Nat.and_le_right
  unfold Message.common1 Message.get_message_type
  simp only
  split
  · omega
  · split
    · omega
    · split
      · omega
      · split
        · omega
        · rfl

theorem mt_common2_ne (s d1 d2 : Nat) (lt : MidiFileLoopType) :
    (Message.common2 s d1 d2 lt).get_message_type ≠ 255 ∧
    (Message.common2 s d1 d2 lt).get_message_type ≠ 252 := by
  have h : s &&& 15 ≤ 15 := Nat.and_le_right
  have hbase : (Message.mk (s &&& 15) (s &&& 240) d1 d2).get_message_type = 0 := by
    unfold Message.get_message_type
    simp only
    split
    · omega
    · split
      · omega
      · split
        · omega
        · split
          · omega
          · rfl
  have hls : Message.loop_start.get_message_type = 253 := by decide
  have hle : Message.loop_end.get_message_type = 254 := by decide
  unfold Message.common2
  split
  · cases lt <;> simp only
    · simp [hbase]
    · split
      · simp [hls]
      · simp [hbase]
    · split
      · simp [hls]
      · split
        · simp [hle]
        · simp [hbase]
    · split
      · simp [hls]
      · split
        · simp [hle]
        · simp [hbase]
  · simp [hbase]

theorem mt_tempo_change (t : Int) :
    (Message.tempo_change t).get_message_type = 252 := by
  unfold Message.tempo_change Message.get_message_type
  simp

theorem mt_end_of_track : Message.end_of_track.get_message_type = 255 := by
  decide

/-! ## Stable insertion sort lemmas -/

theorem insertByTick_perm (e : Message × Int) (l : List (Message × Int)) :
    List.Perm (insertByTick e l) (e :: l) := by
  induction l with
  | nil => simp [insertByTick]
  | cons x xs ih =>
    unfold insertByTick
    split
    · exact (ih.cons x).trans (List.Perm.swap e x xs)
    · exact List.Perm.refl _

theorem sortByTick_perm (l : List (Message × Int)) :
    List.Perm (sortByTick l) l := by
  induction l with
  | nil => simp [sortByTick]
  | cons x xs ih =>
    have h : sortByTick (x :: xs) = insertByTick x (sortByTick xs) := rfl
    rw [h]
    exact (insertByTick_perm x (sortByTick xs)).trans (ih.cons x)

theorem mem_insertByTick {y e : Message × Int} {l : List (Message × Int)}
    (hy : y ∈ insertByTick e l) : y = e ∨ y ∈ l :=
  by simpa using (insertByTick_perm e l).mem_iff.mp hy

theorem insertByTick_sorted (e : Message × Int) (l : List (Message × Int))
    (hl : l.Pairwise (fun a b : Message × Int => a.2 ≤ b.2)) :
    (insertByTick e l).Pairwise (fun a b : Message × Int => a.2 ≤ b.2) := by
  induction l with
  | nil => simp [insertByTick]
  | cons x xs ih =>
    rw [List.pairwise_cons] at hl
    unfold insertByTick
    split
    · rename_i hx
      rw [List.pairwise_cons]
      constructor
      · intro y hy
        rcases mem_insertByTick hy with rfl | hy2
        · exact le_of_lt hx
        · exact hl.1 y hy2
      · exact ih hl.2
    · rename_i hx
      rw [List.pairwise_cons]
      constructor
      · intro y hy
        rcases List.mem_cons.mp hy with rfl | hy2
        · omega
        · exact le_trans (by omega) (hl.1 y hy2)
      · exact List.pairwise_cons.mpr hl

theorem sortByTick_sorted (l : List (Message × Int)) :
    (sortByTick l).Pairwise (fun a b : Message × Int => a.2 ≤ b.2) := by
  induction l with
  | nil => simp [sortByTick]
  | cons x xs ih => exact insertByTick_sorted x (sortByTick xs) ih

theorem filter_insertByTick (e : Message × Int) (l : List (Message × Int)) (v : Int) :
    (insertByTick e l).filter (fun x => x.2 == v) =
      if e.2 = v then e :: l.filter (fun x => x.2 == v)
      else l.filter (fun x => x.2 == v) := by
  induction l with
  | nil =>
    simp only [insertByTick, List.filter]
    split <;> simp_all
  | cons x xs ih =>
    unfold insertByTick
    split
    · rename_i hx
      rcases Decidable.em (e.2 = v) with he | he
      · have hxv : ¬ (x.2 = v) := by omega
        simp only [List.filter_cons, ih]
        simp [he, hxv]
      · simp only [List.filter_cons, ih]
        simp [he]
    · rcases Decidable.em (e.2 = v) with he | he
      · simp [List.filter_cons, he]
      · simp [List.filter_cons, he]

theorem filter_sortByTick (l : List (Message × Int)) (v : Int) :
    (sortByTick l).filter (fun x => x.2 == v) = l.filter (fun x => x.2 == v) := by
  induction l with
  | nil => rfl
  | cons x xs ih =>
    have h : sortByTick (x :: xs) = insertByTick x (sortByTick xs) := rfl
    rw [h, filter_insertByTick]
    rcases Decidable.em (x.2 = v) with hx | hx
    · simp [hx, List.filter_cons, ih]
    · simp [hx, List.filter_cons, ih]

/-! ## The `read_track` loop invariant -/

theorem loop_step_event {lt : MidiFileLoopType} {n : Nat}
    (IH : ∀ (bytes : List Nat) (size total : Nat) (tick : Int) (ls : Nat)
      (acc : List (Message × Int)) (g : Bool) (ev : List (Message × Int))
      (rest : List Nat) (wf : Bool),
      readTrackLoop lt n bytes size total tick ls acc g = .ok (ev, rest, wf) →
      loopOkSpec tick acc ev g wf)
    {r : List Nat} {size total : Nat} {tick d : Int} {ls2 : Nat}
    {acc : List (Message × Int)} {g : Bool} {m : Message}
    {ev : List (Message × Int)} {rest : List Nat} {wf : Bool}
    (h : readTrackLoop lt n r size total (wrap32 (tick + d)) ls2
        (acc ++ [(m, wrap32 (tick + d))])
        (g && decide (0 ≤ d) && decide (tick + d < 2147483648)) = .ok (ev, rest, wf))
    (hm : m.get_message_type ≠ 255) :
    loopOkSpec tick acc ev g wf := by
  obtain ⟨⟨suf, hsuf⟩, hlast, hcount, hwf⟩ :=
    IH _ _ _ _ _ _ _ _ _ _ h
  refine ⟨⟨(m, wrap32 (tick + d)) :: suf, by rw [hsuf, List.append_assoc]; rfl⟩,
    hlast, ?_, ?_⟩
  · rw [hcount, List.countP_append]
    have : isEOT (m, wrap32 (tick + d)) = false := by
      simp [isEOT, hm]
    simp [List.countP_cons, this]
  · intro hwt
    obtain ⟨hg2, hmono⟩ := hwf hwt
    rw [Bool.and_eq_true, Bool.and_eq_true] at hg2
    obtain ⟨⟨hg, hc1⟩, hc2⟩ := hg2
    refine ⟨hg, ?_⟩
    intro htick hbound hpw
    have hd : (0 : Int) ≤ d := of_decide_eq_true hc1
    have hub : tick + d < 2147483648 := of_decide_eq_true hc2
    have hid : wrap32 (tick + d) = tick + d := wrap32_eq_of _ (by omega) hub
    refine hmono (wrap32_lb _) ?_ ?_
    · intro x hx
      rcases List.mem_append.mp hx with hx1 | hx2
      · have := hbound x hx1
        omega
      · rcases List.mem_singleton.mp hx2 with rfl
        omega
    · refine List.pairwise_append.mpr ⟨hpw, by simp, ?_⟩
      intro a ha b hb
      rcases List.mem_singleton.mp hb with rfl
      have := hbound a ha
      simp only
      omega

theorem loop_step_skip {lt : MidiFileLoopType} {n : Nat}
    (IH : ∀ (bytes : List Nat) (size total : Nat) (tick : Int) (ls : Nat)
      (acc : List (Message × Int)) (g : Bool) (ev : List (Message × Int))
      (rest : List Nat) (wf : Bool),
      readTrackLoop lt n bytes size total tick ls acc g = .ok (ev, rest, wf) →
      loopOkSpec tick acc ev g wf)
    {r : List Nat} {size total : Nat} {tick d : Int} {ls2 : Nat}
    {acc : List (Message × Int)} {g : Bool}
    {ev : List (Message × Int)} {rest : List Nat} {wf : Bool}
    (h : readTrackLoop lt n r size total (wrap32 (tick + d)) ls2 acc
        (g && decide (0 ≤ d) && decide (tick + d < 2147483648)) = .ok (ev, rest, wf)) :
    loopOkSpec tick acc ev g wf := by
  obtain ⟨hsuf, hlast, hcount, hwf⟩ := IH _ _ _ _ _ _ _ _ _ _ h
  refine ⟨hsuf, hlast, hcount, ?_⟩
  intro hwt
  obtain ⟨hg2, hmono⟩ := hwf hwt
  rw [Bool.and_eq_true, Bool.and_eq_true] at hg2
  obtain ⟨⟨hg, hc1⟩, hc2⟩ := hg2
  refine ⟨hg, ?_⟩
  intro htick hbound hpw
  have hd : (0 : Int) ≤ d := of_decide_eq_true hc1
  have hub : tick + d < 2147483648 := of_decide_eq_true hc2
  have hid : wrap32 (tick + d) = tick + d := wrap32_eq_of _ (by omega) hub
  refine hmono (wrap32_lb _) ?_ hpw
  intro x hx
  have := hbound x hx
  omega

theorem loop_step_eot {tick d : Int} {acc ev : List (Message × Int)} {g wf : Bool}
    (hev : acc ++ [(Message.end_of_track, wrap32 (tick + d))] = ev)
    (hwfe : (g && decide (0 ≤ d) && decide (tick + d < 2147483648)) = wf) :
    loopOkSpec tick acc ev g wf := by
  subst hev
  refine ⟨⟨[(Message.end_of_track, wrap32 (tick + d))], rfl⟩,
    ⟨wrap32 (tick + d), List.getLast?_concat _⟩, ?_, ?_⟩
  · have : isEOT (Message.end_of_track, wrap32 (tick + d)) = true := by
      simp [isEOT, mt_end_of_track]
    simp [List.countP_append, List.countP_cons, this]
  · intro hwt
    rw [← hwfe] at hwt
    rw [Bool.and_eq_true, Bool.and_eq_true] at hwt
    obtain ⟨⟨hg, hc1⟩, hc2⟩ := hwt
    refine ⟨hg, ?_⟩
    intro htick hbound hpw
    have hd : (0 : Int) ≤ d := of_decide_eq_true hc1
    have hub : tick + d < 2147483648 := of_decide_eq_true hc2
    have hid : wrap32 (tick + d) = tick + d := wrap32_eq_of _ (by omega) hub
    refine List.pairwise_append.mpr ⟨hpw, by simp, ?_⟩
    intro a ha b hb
    rcases List.mem_singleton.mp hb with rfl
    have := hbound a ha
    simp only
    omega

theorem readTrackLoop_ok (lt : MidiFileLoopType) :
    ∀ (fuel : Nat) (bytes : List Nat) (size total : Nat) (tick : Int) (ls : Nat)
      (acc : List (Message × Int)) (g : Bool) (ev : List (Message × Int))
      (rest : List Nat) (wf : Bool),
      readTrackLoop lt fuel bytes size total tick ls acc g = .ok (ev, rest, wf) →
      loopOkSpec tick acc ev g wf := by
  intro fuel
  induction fuel with
  | zero =>
    intro bytes size total tick ls acc g ev rest wf h
    simp [readTrackLoop] at h
  | succ n IH =>
    intro bytes size total tick ls acc g ev rest wf h
    simp only [readTrackLoop] at h
    split at h
    · simp at h
    · split at h
      · simp at h
      · split at h
        · -- running status
          split at h
          · exact loop_step_event IH h (by rw [mt_common1]; omega)
          · split at h
            · simp at h
            · exact loop_step_event IH h (mt_common2_ne _ _ _ _).1
        · split at h
          · -- SysEx skip
            split at h
            · simp at h
            · exact loop_step_skip IH h
          · split at h
            · -- meta
              split at h
              · simp at h
              · split at h
                · -- end of track
                  split at h
                  · simp at h
                  · split at h
                    · split at h
                      · simp at h
                      · simp only [Except.ok.injEq, Prod.mk.injEq] at h
                        exact loop_step_eot h.1 (h.2.2.trans rfl) |>.imp id id |>.imp id id
                    · simp only [Except.ok.injEq, Prod.mk.injEq] at h
                      exact loop_step_eot h.1 h.2.2
                · split at h
                  · -- set tempo
                    split at h
                    · simp at h
                    · exact loop_step_event IH h (by rw [mt_tempo_change]; omega)
                  · -- other meta skip
                    split at h
                    · simp at h
                    · exact loop_step_skip IH h
            · -- genuine status byte
              split at h
              · split at h
                · simp at h
                · exact loop_step_event IH h (by rw [mt_common1]; omega)
              · split at h
                · simp at h
                · split at h
                  · simp at h
                  · exact loop_step_event IH h (mt_common2_ne _ _ _ _).1

theorem readTrackCore_ok (bytes : List Nat) (lt : MidiFileLoopType)
    (T : List (Message × Int)) (rest : List Nat) (wf : Bool)
    (h : readTrackCore bytes lt = .ok (T, rest, wf)) :
    loopOkSpec 0 [] T true wf := by
  unfold readTrackCore at h
  split at h
  · simp at h
  · split at h
    · split at h
      · simp at h
      · exact readTrackLoop_ok lt _ _ _ _ _ _ _ _ _ _ _ h
    · simp at h

/-! ## Claim C7 -/

/-- C7 (amended): whenever `read_track` returns `Ok` with event list `T`,
`T` is non-empty, its last element's message is `END_OF_TRACK`, and `T`
contains exactly one `END_OF_TRACK` entry; the tick values of `T` are
monotonically non-decreasing PROVIDED no tick computation of the run
overflowed `i32` (every decoded delta non-negative and every tick sum
below `2^31`, as recorded by `readTrackWrapFree`).  The original claim
asserts monotonicity unconditionally; `claim_C7_counterexample` refutes
that. -/
theorem claim_C7 (bytes : List Nat) (lt : MidiFileLoopType)
    (T : List (Message × Int)) (h : read_track bytes lt = .ok T) :
    T ≠ [] ∧
    (∃ t, T.getLast? = some (Message.end_of_track, t)) ∧
    T.countP isEOT = 1 ∧
    (readTrackWrapFree bytes lt = true →
      T.Pairwise (fun a b : Message × Int => a.2 ≤ b.2)) := by
  unfold read_track at h
  cases hc : readTrackCore bytes lt with
  | error e => rw [hc] at h; simp [Except.map] at h
  | ok r =>
    rw [hc] at h
    simp only [Except.map, Except.ok.injEq] at h
    obtain ⟨T2, rest, wf⟩ := r
    simp only at h
    subst h
    obtain ⟨_, hlast, hcount, hwf⟩ := readTrackCore_ok bytes lt T2 rest wf hc
    refine ⟨?_, hlast, by simpa using hcount, ?_⟩
    · intro hT
      rw [hT] at hlast
      simp at hlast
    · intro hfree
      unfold readTrackWrapFree at hfree
      rw [hc] at hfree
      simp only at hfree
      exact (hwf hfree).2 (by norm_num) (by simp) (by simp)

/-- Witness for C7: a parsed minimal track (tempo change then
end-of-track) satisfies all conclusions, with monotone ticks. -/
theorem claim_C7_witness :
    ([(Message.mk 252 7 161 32, (0 : Int)), (Message.mk 255 0 0 0, 0)] ≠ []) ∧
    (∃ t, [(Message.mk 252 7 161 32, (0 : Int)),
      (Message.mk 255 0 0 0, 0)].getLast? = some (Message.end_of_track, t)) ∧
    ([(Message.mk 252 7 161 32, (0 : Int)),
      (Message.mk 255 0 0 0, 0)].countP isEOT = 1) ∧
    (readTrackWrapFree s1track (.loopPoint 0) = true →
      [(Message.mk 252 7 161 32, (0 : Int)),
        (Message.mk 255 0 0 0, 0)].Pairwise (fun a b : Message × Int => a.2 ≤ b.2)) :=
  claim_C7 s1track (.loopPoint 0) _ (by rfl)

/-- Counterexample to C7 as stated: a track whose deltas are all valid
4-byte variable-length quantities (`FF FF FF 7F` = `0x0FFFFFFF`) parses
successfully, but the ninth accumulated tick overflows `i32`
(`9 · 0x0FFFFFFF ≥ 2^31`), wraps negative, and the returned tick sequence
decreases between the eighth and ninth events. -/
theorem claim_C7_counterexample :
    read_track c7bytes (.loopPoint 0) = .ok c7events ∧
    ¬ List.Chain' (fun a b : Message × Int => a.2 ≤ b.2) c7events := by
  constructor
  · rfl
  · norm_num [c7events, List.chain'_cons]

/-! ## Claim C9 -/

/-- C9 (amended): `MidiTrack::get_length` returns the last element of
`times` when `times` is non-empty; on an empty `times` it does NOT return
0 — `*self.times.last().unwrap()` panics (modelled as `none`). -/
theorem claim_C9 (t : MidiTrackL) :
    (∀ h : t.times ≠ [], t.get_length = some (t.times.getLast h)) ∧
    (t.times = [] → t.get_length = none) := by
  constructor
  · intro h
    unfold MidiTrackL.get_length
    exact List.getLast?_eq_getLast _ h
  · intro h
    unfold MidiTrackL.get_length
    rw [h]
    rfl

/-- Witness for C9 at concrete tracks. -/
theorem claim_C9_witness :
    (MidiTrackL.mk [Message.end_of_track] [(3 : ℚ)/2]).get_length = some ((3 : ℚ)/2) ∧
    (MidiTrackL.mk [] []).get_length = none := by
  constructor
  · exact ((claim_C9 (MidiTrackL.mk [Message.end_of_track] [(3 : ℚ)/2])).1
      (by simp)).trans (by norm_num)
  · exact (claim_C9 (MidiTrackL.mk [] [])).2 rfl

/-- Counterexample to C9 as stated: on an empty `times` the function does
not return 0; it has no value at all (the `unwrap` panics). -/
theorem claim_C9_counterexample :
    (MidiTrackL.mk [] []).get_length ≠ some 0 := by
  intro h
  simp [MidiTrackL.get_length] at h

/-! ## Claim C10 -/

/-- C10: evaluating `read_from_chunk` at the failing input `size = 0`
(an empty zone list): the claim says it returns `Ok` with an empty vector
and never panics, but `(count - 1) as usize` underflows to `2^64 - 1` and
the fix-up loop's first iteration indexes `zones[0]` of the empty vector —
an out-of-bounds panic. -/
theorem claim_C10 :
    read_from_chunk [] 0 = .error .indexPanic ∧
    ∀ bytes : List Nat, read_from_chunk bytes 0 = .error .indexPanic := by
  constructor
  · rfl
  · intro bytes
    rfl

/-! ## The `cast_delta` loop invariant -/

theorem get_tempo_nonneg (m : Message) : 0 ≤ m.get_tempo := by
  unfold Message.get_tempo
  positivity

theorem castDeltaLoop_ok (res : Int) (hres : 0 < res) :
    ∀ (track : List (Message × Int)) (curTick : Int) (time : ℚ) (tempo : ℚ)
      (msgs : List Message) (times : List ℚ),
      (∀ e ∈ track, 0 ≤ e.2 ∧ e.2 < 2147483648) →
      track.Pairwise (fun a b : Message × Int => a.2 ≤ b.2) →
      (∀ e ∈ track, curTick ≤ e.2) →
      0 ≤ curTick → curTick < 2147483648 →
      0 ≤ tempo →
      times.Pairwise (fun a b : ℚ => a ≤ b) →
      (∀ t ∈ times, t ≤ time) →
      times.length = msgs.length →
      (∀ m ∈ msgs, m.get_message_type ≠ 252) →
      ((castDeltaLoop res track curTick time tempo msgs times).1.times.Pairwise
          (fun a b : ℚ => a ≤ b) ∧
       (castDeltaLoop res track curTick time tempo msgs times).1.times.length =
          (castDeltaLoop res track curTick time tempo msgs times).1.messages.length ∧
       (∀ m ∈ (castDeltaLoop res track curTick time tempo msgs times).1.messages,
          m.get_message_type ≠ 252)) := by
  intro track
  induction track with
  | nil =>
    intro curTick time tempo msgs times _ _ _ _ _ _ hptimes _ hlen hmsgs
    exact ⟨hptimes, hlen, hmsgs⟩
  | cons e tr ih =>
    intro curTick time tempo msgs times hrange hpw hcur h0 h1 htempo hptimes hbtimes hlen hmsgs
    obtain ⟨m, nextTick⟩ := e
    have hnext0 : 0 ≤ nextTick := (hrange _ (List.mem_cons_self _ _)).1
    have hnext1 : nextTick < 2147483648 := (hrange _ (List.mem_cons_self _ _)).2
    have hcur0 : curTick ≤ nextTick := hcur _ (List.mem_cons_self _ _)
    have hdiff : wrap32 (nextTick - curTick) = nextTick - curTick :=
      wrap32_eq_of _ (by omega) (by omega)
    have hstep : wrap32 (curTick + wrap32 (nextTick - curTick)) = nextTick := by
      rw [hdiff]
      have : curTick + (nextTick - curTick) = nextTick := by ring
      rw [this]
      exact wrap32_eq_of _ (by omega) (by omega)
    have hdt : (0 : ℚ) ≤ 60 / ((res : ℚ) * tempo) * ((wrap32 (nextTick - curTick) : Int) : ℚ) := by
      apply mul_nonneg
      · apply div_nonneg (by norm_num)
        apply mul_nonneg _ htempo
        have : (0 : ℚ) ≤ (res : ℚ) := by exact_mod_cast le_of_lt hres
        exact this
      · rw [hdiff]
        have : (0 : Int) ≤ nextTick - curTick := by omega
        exact_mod_cast this
    have hrange2 : ∀ x ∈ tr, 0 ≤ x.2 ∧ x.2 < 2147483648 :=
      fun x hx => hrange x (List.mem_cons_of_mem _ hx)
    have hpw2 := (List.pairwise_cons.mp hpw).2
    have hcur2 : ∀ x ∈ tr, nextTick ≤ x.2 :=
      fun x hx => (List.pairwise_cons.mp hpw).1 x hx
    simp only [castDeltaLoop]
    split
    · -- tempo change: drop the message, update the tempo
      rw [hstep]
      exact ih nextTick _ _ msgs times hrange2 hpw2 hcur2 hnext0 hnext1
        (get_tempo_nonneg m) hptimes
        (fun t ht => le_trans (hbtimes t ht) (le_add_of_nonneg_right hdt))
        hlen hmsgs
    · -- normal message: emit it with its time stamp
      rename_i hmt
      rw [hstep]
      refine ih nextTick _ _ (msgs ++ [m]) _ hrange2 hpw2 hcur2 hnext0 hnext1
        htempo ?_ ?_ ?_ ?_
      · refine List.pairwise_append.mpr ⟨hptimes, by simp, ?_⟩
        intro a ha b hb
        rcases List.mem_singleton.mp hb with rfl
        exact le_trans (hbtimes a ha) (le_add_of_nonneg_right hdt)
      · intro t ht
        rcases List.mem_append.mp ht with ht1 | ht2
        · exact le_trans (hbtimes t ht1) (le_add_of_nonneg_right hdt)
        · rcases List.mem_singleton.mp ht2 with rfl
          exact le_refl _
      · simp [hlen]
      · intro m2 hm2
        rcases List.mem_append.mp hm2 with hm1 | hm1
        · exact hmsgs m2 hm1
        · rcases List.mem_singleton.mp hm1 with rfl
          exact hmt

/-! ## Claim C8 -/

/-- C8 (amended): for every input RawTrack whose ticks are NON-NEGATIVE
`i32` values and non-decreasing, and whose resolution is positive, the
TimedTrack produced by `cast_delta` has non-decreasing times, `times` of
the same length as `messages`, and no `TEMPO_CHANGE` among the messages.
The original claim omits non-negativity of the ticks; then the `i32`
subtraction `next_tick - current_tick` can overflow and the times
decrease (`claim_C8_counterexample`). -/
theorem claim_C8 (track : List (Message × Int)) (res : Int)
    (hrange : ∀ e ∈ track, 0 ≤ e.2 ∧ e.2 < 2147483648)
    (hmono : List.Chain' (fun a b : Message × Int => a.2 ≤ b.2) track)
    (hres : 0 < res) :
    (cast_delta track res).1.times.Pairwise (fun a b : ℚ => a ≤ b) ∧
    (cast_delta track res).1.times.length = (cast_delta track res).1.messages.length ∧
    (∀ m ∈ (cast_delta track res).1.messages, m.get_message_type ≠ 252) := by
  haveI : IsTrans (Message × Int) (fun a b : Message × Int => a.2 ≤ b.2) :=
    ⟨fun _ _ _ hab hbc => le_trans hab hbc⟩
  have hpw : track.Pairwise (fun a b : Message × Int => a.2 ≤ b.2) :=
    List.chain'_iff_pairwise.mp hmono
  unfold cast_delta
  cases track with
  | nil => simp
  | cons e tr =>
    exact castDeltaLoop_ok res hres (e :: tr) 0 0 120 [] []
      hrange hpw (fun x hx => (hrange x hx).1) (le_refl 0) (by norm_num)
      (by norm_num) (by simp) (by simp) (by simp) (by simp)

/-- Witness for C8: the spec-S4 track has non-negative non-decreasing
ticks, and the cast track satisfies all three conclusions. -/
theorem claim_C8_witness :
    (cast_delta s4track 480).1.times.Pairwise (fun a b : ℚ => a ≤ b) ∧
    (cast_delta s4track 480).1.times.length =
      (cast_delta s4track 480).1.messages.length ∧
    (∀ m ∈ (cast_delta s4track 480).1.messages, m.get_message_type ≠ 252) :=
  claim_C8 s4track 480
    (by intro e he; fin_cases he <;> constructor <;> norm_num [s4track])
    (by norm_num [s4track, List.chain'_cons])
    (by norm_num)

/-- Counterexample to C8 as stated: `c8track` has non-decreasing `i32`
ticks (`-2^31 ≤ 0`) and the resolution 480 is positive, yet the times
emitted by `cast_delta` DECREASE: the tick difference `0 - (-2^31) = 2^31`
overflows `i32` to `-2^31`, producing a negative second time delta. -/
theorem claim_C8_counterexample :
    List.Chain' (fun a b : Message × Int => a.2 ≤ b.2) c8track ∧
    (0 : Int) < 480 ∧
    ¬ (cast_delta c8track 480).1.times.Pairwise (fun a b : ℚ => a ≤ b) := by
  refine ⟨by norm_num [c8track, List.chain'_cons], by norm_num, ?_⟩
  intro hpw
  have e1 : (Message.common1 144 60).get_message_type = 0 := by decide
  have e2 : (Message.common1 144 62).get_message_type = 0 := by decide
  have h : (cast_delta c8track 480).1.times =
      [(0 : ℚ) + 60 / (480 * 120) * (-2147483648 : Int),
       (0 : ℚ) + 60 / (480 * 120) * (-2147483648 : Int)
         + 60 / (480 * 120) * (-2147483648 : Int)] := by
    simp only [cast_delta, c8track, castDeltaLoop, e1, e2]
    norm_num [wrap32, toSigned32]
  rw [h] at hpw
  rcases List.pairwise_cons.mp hpw with ⟨hle, _⟩
  have h2 := hle _ (List.mem_cons_self _ _)
  norm_num at h2

/-! ## Claim C6 -/

/-- Round trip of the 24-bit tempo payload: for `0 ≤ t < 2^24`, the three
bytes packed by `tempo_change` reassemble to `t`, so `get_tempo` is
`60000000 / t`. -/
theorem get_tempo_tempo_change (t : Int) (h0 : 0 ≤ t) (h1 : t < 16777216) :
    (Message.tempo_change t).get_tempo = 60000000 / (t : ℚ) := by
  unfold Message.tempo_change Message.get_tempo
  simp only
  have hmod : t % 4294967296 = t := by omega
  rw [hmod]
  have hnat : (t.toNat / 65536 % 256) * 65536 + (t.toNat / 256 % 256) * 256
      + t.toNat % 256 = t.toNat := by
    have ht : t.toNat < 16777216 := by omega
    omega
  rw [hnat]
  congr 1
  exact_mod_cast congrArg (fun x : Int => (x : ℚ)) (Int.toNat_of_nonneg h0)

/-- C6 (confirmed over exact rational arithmetic): for a RawTrack with a
single `TEMPO_CHANGE` of payload `μspq ∈ (0, 2^24)` at tick 0 and a single
later event at tick `k ∈ (0, 2^31)`, `cast_delta` emits for that event the
time `60·k / (resolution · (60000000 / μspq))` seconds (exactly, over
`ℚ`; the `f64` of the source agrees to within rounding, i.e. 1 ULP per
operation); and for the spec-S4 track (120 BPM for the first 480 ticks,
then 60 BPM, event at tick 960, resolution 480) the emitted time is
exactly `3/2` seconds. -/
theorem claim_C6 (μ k res : Int) (m : Message)
    (hμ0 : 0 < μ) (hμ1 : μ < 16777216)
    (hk0 : 0 < k) (hk1 : k < 2147483648)
    (hres : 0 < res)
    (hm : m.get_message_type ≠ 252) :
    (cast_delta [(Message.tempo_change μ, 0), (m, k)] res).1.times
      = [60 * (k : ℚ) / ((res : ℚ) * (60000000 / (μ : ℚ)))] ∧
    (cast_delta s4track 480).1.times = [(3 : ℚ)/2] := by
  constructor
  · have h0 : cast_delta [(Message.tempo_change μ, 0), (m, k)] res
        = castDeltaLoop res [(Message.tempo_change μ, 0), (m, k)] 0 0 120 [] [] := rfl
    rw [h0]
    have hz : wrap32 (0 : Int) = 0 := by decide
    have hwk : wrap32 k = k := wrap32_eq_of k (by omega) hk1
    simp only [castDeltaLoop, mt_tempo_change, if_pos, sub_zero, add_zero,
      zero_add, hz, hwk, get_tempo_tempo_change μ (le_of_lt hμ0) hμ1]
    rw [if_neg hm]
    simp only [List.nil_append, Int.cast_zero, mul_zero, add_zero, zero_add,
      List.cons.injEq, and_true]
    ring
  · have t1 : (Message.tempo_change 500000).get_tempo = 120 := by
      rw [get_tempo_tempo_change 500000 (by norm_num) (by norm_num)]
      norm_num
    have t2 : (Message.tempo_change 1000000).get_tempo = 60 := by
      rw [get_tempo_tempo_change 1000000 (by norm_num) (by norm_num)]
      norm_num
    have e3 : (Message.common1 192 5).get_message_type = 0 := by decide
    have hz0 : wrap32 (0 : Int) = 0 := by decide
    have hz480 : wrap32 (480 : Int) = 480 := by decide
    have hz960 : wrap32 (960 : Int) = 960 := by decide
    simp only [s4track, cast_delta, castDeltaLoop, mt_tempo_change, if_pos,
      t1, t2, e3]
    norm_num [hz0, hz480, hz960]

/-- Witness for C6 at `μspq = 500000`, `k = 480`, `res = 480` and a
note-on message: the emitted time is `60·480 / (480·120) = 1/2`. -/
theorem claim_C6_witness :
    (cast_delta [(Message.tempo_change 500000, 0),
        (Message.common1 144 60, 480)] 480).1.times
      = [60 * (480 : ℚ) / ((480 : ℚ) * (60000000 / (500000 : ℚ)))] ∧
    (cast_delta s4track 480).1.times = [(3 : ℚ)/2] :=
  claim_C6 500000 480 480 (Message.common1 144 60)
    (by norm_num) (by norm_num) (by norm_num) (by norm_num) (by norm_num)
    (by decide)

/-! ## Claim C5 -/

/-- C5 (amended): the tempo fusion of `MidiFile::new_with_loop_type`
extends EVERY track — including the selected tempo-map track itself — with
the tempo map's events and sorts each result by tick ascending; the sort
produces a tick-sorted permutation of `track ++ tempo map`.  The sort of
this path is `sort_unstable_by`, so equal-tick order is not guaranteed
there; the fusion of `ThreadedRender::render` uses the stable
`par_sort_by`, and there every group of equal-tick events preserves its
pre-sort relative order (filtering the fused track by any tick value gives
exactly the same subsequence as filtering the unsorted concatenation). -/
theorem claim_C5 :
    (∀ (tracks : List (List (Message × Int))) (sel : List (Message × Int)),
      (tracks.filter hasTempo).head? = some sel →
      fuseTempo tracks = tracks.map (fun x => sortByTick (x ++ sel))) ∧
    (∀ l : List (Message × Int),
      List.Perm (sortByTick l) l ∧
      (sortByTick l).Pairwise (fun a b : Message × Int => a.2 ≤ b.2)) ∧
    (∀ (track tm : List (Message × Int)) (v : Int),
      (renderFuse track tm).filter (fun e => e.2 == v)
        = (track ++ tm).filter (fun e => e.2 == v)) := by
  refine ⟨?_, fun l => ⟨sortByTick_perm l, sortByTick_sorted l⟩, ?_⟩
  · intro tracks sel h
    unfold fuseTempo
    rw [h]
  · intro track tm v
    unfold renderFuse
    exact filter_sortByTick _ v

/-- Witness for C5: with a single track that is itself the tempo map, the
fusion extends it with its own events; and the render-side fusion of two
tempo tracks preserves the tick-0 subsequence. -/
theorem claim_C5_witness :
    fuseTempo [tempoTrackA] = [sortByTick (tempoTrackA ++ tempoTrackA)] ∧
    (renderFuse tempoTrackA tempoTrackB).filter (fun e => e.2 == 0)
      = (tempoTrackA ++ tempoTrackB).filter (fun e => e.2 == 0) := by
  constructor
  · exact (claim_C5.1 [tempoTrackA] tempoTrackA (by decide)).trans rfl
  · exact claim_C5.2.2 tempoTrackA tempoTrackB 0

/-- Counterexample to C5 as stated: the claim says only the
non-tempo-map tracks are extended, so a file whose single track IS the
tempo map would keep that track unchanged; the code extends it with its
own clone, duplicating every tempo event. -/
theorem claim_C5_counterexample :
    hasTempo tempoTrackA = true ∧
    fuseTempo [tempoTrackA] ≠ [tempoTrackA] ∧
    fuseTempo [tempoTrackA] = [tempoTrackA ++ tempoTrackA] := by
  refine ⟨by decide, by decide, by decide⟩

/-! ## Claim C3 -/

/-- C3 (amended): header parsing of the two constructors accepts
DIFFERENT format sets.  `MidiFile::new_with_loop_type` accepts exactly
format 1: on a well-formed `MThd` chunk (tag, size 6) declaring format
`f`, it proceeds to the track-parsing body iff `f = 1` and otherwise
fails with `UnsupportedFormat(f)` — in particular format 0 is REJECTED
there.  `ThreadedRender::new` accepts exactly formats 0 and 1, failing
with `UnsupportedFormat(f)` for any other `f`. -/
theorem claim_C3 (f0 f1 b0 b1 b2 b3 : Nat) (rest : List Nat) (lt : MidiFileLoopType) :
    (toSigned16 ((f0 % 256) * 256 + f1 % 256) = 1 →
      new_with_loop_type
          (mthdTag ++ 0 :: 0 :: 0 :: 6 :: f0 :: f1 :: b0 :: b1 :: b2 :: b3 :: rest) lt
        = midiFileBody lt (toSigned16 ((b0 % 256) * 256 + b1 % 256))
            (toSigned16 ((b2 % 256) * 256 + b3 % 256)) rest) ∧
    (toSigned16 ((f0 % 256) * 256 + f1 % 256) ≠ 1 →
      new_with_loop_type
          (mthdTag ++ 0 :: 0 :: 0 :: 6 :: f0 :: f1 :: b0 :: b1 :: b2 :: b3 :: rest) lt
        = .error (.unsupportedFormat (toSigned16 ((f0 % 256) * 256 + f1 % 256)))) ∧
    ((toSigned16 ((f0 % 256) * 256 + f1 % 256) = 0 ∨
        toSigned16 ((f0 % 256) * 256 + f1 % 256) = 1) →
      threadedRenderNew
          (mthdTag ++ 0 :: 0 :: 0 :: 6 :: f0 :: f1 :: b0 :: b1 :: b2 :: b3 :: rest)
        = renderBody (toSigned16 ((f0 % 256) * 256 + f1 % 256))
            (((b0 % 256) * 256 + b1 % 256 : Nat) : Int)
            (toSigned16 ((b2 % 256) * 256 + b3 % 256)) rest
            (mthdTag ++ 0 :: 0 :: 0 :: 6 :: f0 :: f1 :: b0 :: b1 :: b2 :: b3 :: rest)) ∧
    (¬ (toSigned16 ((f0 % 256) * 256 + f1 % 256) = 0 ∨
        toSigned16 ((f0 % 256) * 256 + f1 % 256) = 1) →
      threadedRenderNew
          (mthdTag ++ 0 :: 0 :: 0 :: 6 :: f0 :: f1 :: b0 :: b1 :: b2 :: b3 :: rest)
        = .error (.unsupportedFormat (toSigned16 ((f0 % 256) * 256 + f1 % 256)))) := by
  refine ⟨?_, ?_, ?_, ?_⟩
  · intro h
    norm_num [new_with_loop_type, mthdTag, readFourCC, readI32BE, readI16BE,
      toSigned32, h]
  · intro h
    norm_num [new_with_loop_type, mthdTag, readFourCC, readI32BE, readI16BE,
      toSigned32, h]
  · intro h
    norm_num [threadedRenderNew, mthdTag, readFourCC, readI32BE, readI16BE,
      readU16BE, toSigned32, h]
  · intro h
    rw [not_or] at h
    norm_num [threadedRenderNew, mthdTag, readFourCC, readI32BE, readI16BE,
      readU16BE, toSigned32, h.1, h.2]

/-- Witness for C3: format 2 is rejected by `MidiFile::new_with_loop_type`
with `UnsupportedFormat 2`, and the format-0 file `f0file` passes the
header of `ThreadedRender::new` and proceeds to its body. -/
theorem claim_C3_witness :
    new_with_loop_type (mthdTag ++ 0 :: 0 :: 0 :: 6 :: 0 :: 2 :: 0 :: 1 :: 1 :: 224 :: [])
        (.loopPoint 0)
      = .error (.unsupportedFormat 2) ∧
    threadedRenderNew f0file = renderBody 0 1 480 s1track f0file := by
  constructor
  · exact ((claim_C3 0 2 0 1 1 224 [] (.loopPoint 0)).2.1 (by decide)).trans rfl
  · exact ((claim_C3 0 0 0 1 1 224 s1track (.loopPoint 0)).2.2.1
      (Or.inl (by decide))).trans rfl

/-- Counterexample to C3 as stated: the complete, otherwise valid
format-0 file `f0file` is REJECTED by `MidiFile::new_with_loop_type`
with `UnsupportedFormat 0` (midifile.rs:194 demands format == 1), while
`ThreadedRender::new` accepts it. -/
theorem claim_C3_counterexample :
    new_with_loop_type f0file (.loopPoint 0) = .error (.unsupportedFormat 0) ∧
    (threadedRenderNew f0file).isOk = true := by
  constructor
  · rfl
  · rfl

/-! ## Claim C4 -/

theorem collectSeq_map_ok (L : List (List (Message × Int))) :
    collectSeq (L.map Except.ok) = .ok L := by
  induction L with
  | nil => rfl
  | cons x xs ih =>
    simp only [List.map_cons, collectSeq, ih]

theorem scanTempo_find (fuel : Nat) :
    ∀ bytes : List Nat,
      scanTempo fuel bytes = (parseTracksFrom fuel bytes).find? hasTempo := by
  induction fuel with
  | zero => intro bytes; rfl
  | succ n ih =>
    intro bytes
    simp only [scanTempo, parseTracksFrom]
    cases h : readTrackCore bytes (.loopPoint 0) with
    | error e => rfl
    | ok r =>
      dsimp only
      rcases hh : hasTempo r.1 with _ | _
      · rw [List.find?_cons_of_neg _ (by simp [hh])]
        simp only [hh, Bool.false_eq_true, if_false, ih]
      · rw [List.find?_cons_of_pos _ hh]
        simp only [hh, if_true]

/-- C4 (amended): the two constructors pick DIFFERENT tempo-map tracks
and treat its absence differently.  In `MidiFile::new_with_loop_type`,
the per-chunk results are collected by popping from the result vector, so
the collected list is the reverse of the input order, and the designated
tempo map (the head of the filtered collected list) is the LAST
tempo-containing track in input order; when no track contains a
`TEMPO_CHANGE` the constructor does NOT reject the file — the fusion step
is simply skipped.  In `ThreadedRender::new`, the scan designates the
FIRST tempo-containing track in input order and its absence is rejected
with `UnsupportedFormat`. -/
theorem claim_C4 :
    (∀ L : List (List (Message × Int)),
      reverseCollect (L.map Except.ok) = .ok L.reverse) ∧
    (∀ L : List (List (Message × Int)),
      ((L.reverse).filter hasTempo).head? = (L.filter hasTempo).getLast?) ∧
    (∀ L : List (List (Message × Int)),
      L.filter hasTempo = [] → fuseTempo L = L) ∧
    (∀ (fuel : Nat) (bytes : List Nat),
      scanTempo fuel bytes = (parseTracksFrom fuel bytes).find? hasTempo) ∧
    (∀ (format trackCount resolution : Int) (rest allBytes : List Nat),
      scanTempo (rest.length + 1) rest = none →
      renderBody format trackCount resolution rest allBytes
        = .error (.unsupportedFormat format)) ∧
    (∀ (format trackCount resolution : Int) (rest allBytes : List Nat)
        (tm : List (Message × Int)) (st : RenderInfo),
      scanTempo (rest.length + 1) rest = some tm →
      renderBody format trackCount resolution rest allBytes = .ok st →
      st.tempo_map = tm) := by
  refine ⟨?_, ?_, ?_, scanTempo_find, ?_, ?_⟩
  · intro L
    unfold reverseCollect
    rw [← List.map_reverse, collectSeq_map_ok]
  · intro L
    rw [List.filter_reverse, List.head?_reverse]
  · intro L h
    unfold fuseTempo
    rw [h]
    rfl
  · intro format trackCount resolution rest allBytes h
    unfold renderBody
    rw [h]
  · intro format trackCount resolution rest allBytes tm st h1 h2
    unfold renderBody at h2
    rw [h1] at h2
    cases ha : trackAddrLoop (itCount trackCount) (allBytes.drop 14) 0 with
    | error e => rw [ha] at h2; simp at h2
    | ok addrs =>
      rw [ha] at h2
      simp only [Except.ok.injEq] at h2
      rw [← h2]

/-- Witness for C4 at concrete inputs: collecting two parsed tracks
reverses them; the selected tempo map of the pipeline (head of the
filtered reversed list) is `tempoTrackB`, the LAST tempo track in input
order; a no-tempo file leaves fusion inert; and the render body fails
with `UnsupportedFormat 0` on a tempo-free byte stream. -/
theorem claim_C4_witness :
    reverseCollect ([tempoTrackA, tempoTrackB].map Except.ok)
      = .ok [tempoTrackB, tempoTrackA] ∧
    (([tempoTrackA, tempoTrackB].reverse).filter hasTempo).head?
      = ([tempoTrackA, tempoTrackB].filter hasTempo).getLast? ∧
    fuseTempo [[(Message.end_of_track, 0)]] = [[(Message.end_of_track, 0)]] ∧
    renderBody 0 1 480 (mkTrk [0, 255, 47, 0]) []
      = .error (.unsupportedFormat 0) := by
  refine ⟨(claim_C4.1 [tempoTrackA, tempoTrackB]).trans rfl,
    claim_C4.2.1 [tempoTrackA, tempoTrackB],
    claim_C4.2.2.1 [[(Message.end_of_track, 0)]] (by decide),
    claim_C4.2.2.2.2.1 0 1 480 (mkTrk [0, 255, 47, 0]) [] (by decide)⟩

/-- Counterexample to C4 as stated: the complete format-1 file
`noTempoFile` contains no `TEMPO_CHANGE` in any track, yet
`MidiFile::new_with_loop_type` does NOT reject it (it returns `Ok`); and
with the two-track list `[tempoTrackA, tempoTrackB]` (both containing
tempo changes, in input order), the selection applied by the pipeline to
the pop-reversed list picks `tempoTrackB` — the LAST tempo track in input
order, not the first. -/
theorem claim_C4_counterexample :
    (new_with_loop_type noTempoFile (.loopPoint 0)).isOk = true ∧
    (([tempoTrackA, tempoTrackB].reverse).filter hasTempo).head? = some tempoTrackB ∧
    tempoTrackB ≠ tempoTrackA := by
  refine ⟨rfl, by decide, by decide⟩

/-! ## Running-status step lemmas (claims C1 and C2) -/

theorem common2_loopPoint (s d1 d2 p : Nat) :
    Message.common2 s d1 d2 (.loopPoint p)
      = Message.mk (s &&& 15) (s &&& 240) d1 d2 := by
  unfold Message.common2
  split <;> rfl

/-- One iteration of the `read_track` loop taking the running-status
branch with a one-data-byte command (`0xC0`/`0xD0` nibble of
`last_status`): the data byte `b` itself is the single byte consumed, the
emitted message is `common1 last_status b`, and the recursive call keeps
`last_status` UNCHANGED (the branch ends in `continue`). -/
theorem runStatus1_eq (lt : MidiFileLoopType) (n : Nat) (bytes r2 : List Nat)
    (size total : Nat) (tick d : Int) (ls b : Nat)
    (acc : List (Message × Int)) (g : Bool)
    (hv : readVarlen bytes = some (d, b :: r2))
    (hb : b < 256) (hm : b &&& 128 = 0)
    (hc : ls &&& 240 = 192 ∨ ls &&& 240 = 208) :
    readTrackLoop lt (n + 1) bytes size total tick ls acc g
      = readTrackLoop lt n r2 size total (wrap32 (tick + d)) ls
          (acc ++ [(Message.common1 ls b, wrap32 (tick + d))])
          (g && decide (0 ≤ d) && decide (tick + d < 2147483648)) := by
  simp only [readTrackLoop, hv, readU8, Nat.mod_eq_of_lt hb]
  rw [if_pos hm, if_pos hc]

/-- One iteration of the `read_track` loop taking the running-status
branch with a two-data-byte command: the data byte `b` plus one more byte
are consumed, the emitted message is `common2 last_status b d2`, and the
recursive call keeps `last_status` UNCHANGED. -/
theorem runStatus2_eq (lt : MidiFileLoopType) (n : Nat) (bytes r3 : List Nat)
    (size total : Nat) (tick d : Int) (ls b db : Nat)
    (acc : List (Message × Int)) (g : Bool)
    (hv : readVarlen bytes = some (d, b :: db :: r3))
    (hb : b < 256) (hdb : db < 256) (hm : b &&& 128 = 0)
    (hns : ¬ (ls &&& 240 = 192 ∨ ls &&& 240 = 208)) :
    readTrackLoop lt (n + 1) bytes size total tick ls acc g
      = readTrackLoop lt n r3 size total (wrap32 (tick + d)) ls
          (acc ++ [(Message.common2 ls b db lt, wrap32 (tick + d))])
          (g && decide (0 ≤ d) && decide (tick + d < 2147483648)) := by
  simp only [readTrackLoop, hv, readU8, Nat.mod_eq_of_lt hb, Nat.mod_eq_of_lt hdb]
  rw [if_pos hm, if_neg hns]

/-! ## Claim C1 -/

/-- C1 (amended): in `read_track`, an iteration that takes the
running-status branch does NOT update `last_status` — the branch ends in
`continue`, skipping the `last_status = first` assignment at the end of
the iteration — so a subsequent running-status event is still interpreted
with the original status byte.  Concretely: two consecutive
running-status events starting from state `last_status = ls` both append
messages built from `ls` (`common2 ls …`), and the loop state after both
iterations still carries `ls`, not the first data byte `b1` as the
original claim asserts (refuted by `claim_C1_counterexample`). -/
theorem claim_C1 (lt : MidiFileLoopType) (n : Nat)
    (bytes r3 r5 : List Nat) (size total : Nat)
    (tick d1 d2 : Int) (ls b1 db1 b2 db2 : Nat)
    (acc : List (Message × Int)) (g : Bool)
    (hv1 : readVarlen bytes = some (d1, b1 :: db1 :: r3))
    (hb1 : b1 < 256) (hdb1 : db1 < 256) (hm1 : b1 &&& 128 = 0)
    (hns : ¬ (ls &&& 240 = 192 ∨ ls &&& 240 = 208))
    (hv2 : readVarlen r3 = some (d2, b2 :: db2 :: r5))
    (hb2 : b2 < 256) (hdb2 : db2 < 256) (hm2 : b2 &&& 128 = 0) :
    readTrackLoop lt (n + 1 + 1) bytes size total tick ls acc g
      = readTrackLoop lt n r5 size total (wrap32 (wrap32 (tick + d1) + d2)) ls
          (acc ++ [(Message.common2 ls b1 db1 lt, wrap32 (tick + d1))]
               ++ [(Message.common2 ls b2 db2 lt, wrap32 (wrap32 (tick + d1) + d2))])
          ((g && decide (0 ≤ d1) && decide (tick + d1 < 2147483648))
            && decide (0 ≤ d2) && decide (wrap32 (tick + d1) + d2 < 2147483648)) :=
  (runStatus2_eq lt (n + 1) bytes r3 size total tick d1 ls b1 db1 acc g
      hv1 hb1 hdb1 hm1 hns).trans
    (runStatus2_eq lt n r3 r5 size total (wrap32 (tick + d1)) d2 ls b2 db2
      (acc ++ [(Message.common2 ls b1 db1 lt, wrap32 (tick + d1))])
      (g && decide (0 ≤ d1) && decide (tick + d1 < 2147483648))
      hv2 hb2 hdb2 hm2 hns)

/-- Witness for C1: two running-status note-on continuations
(`00 45 7F 00 71 7F`-style bytes) from `last_status = 0x90` both emit
note-on messages on channel 0 and the state keeps `last_status = 0x90`. -/
theorem claim_C1_witness :
    readTrackLoop (.loopPoint 0) (0 + 1 + 1) [0, 69, 127, 0, 71, 127] 14 14 0 144 [] true
      = readTrackLoop (.loopPoint 0) 0 [] 14 14
          (wrap32 (wrap32 (0 + 0) + 0)) 144
          ([] ++ [(Message.common2 144 69 127 (.loopPoint 0), wrap32 (0 + 0))]
              ++ [(Message.common2 144 71 127 (.loopPoint 0), wrap32 (wrap32 (0 + 0) + 0))])
          ((true && decide ((0 : Int) ≤ 0) && decide ((0 : Int) + 0 < 2147483648))
            && decide ((0 : Int) ≤ 0) && decide (wrap32 ((0 : Int) + 0) + 0 < 2147483648)) :=
  claim_C1 (.loopPoint 0) 0 [0, 69, 127, 0, 71, 127] [0, 71, 127] [] 14 14 0 0 0
    144 69 127 71 127 [] true
    (by decide) (by decide) (by decide) (by decide) (by decide)
    (by decide) (by decide) (by decide) (by decide)

/-- Counterexample to C1 as stated: in the track `c1bytes`
(`00 90 3C 7F | 00 45 7F | 00 47 7F | 00 FF 2F 00`), the claim predicts
that after the running-status event `45 7F`, `last_status` becomes `0x45`,
so the next running-status event `47 7F` would be interpreted with status
`0x45` (channel 5, command 0x40).  The parse shows the third message is
`⟨0, 0x90, 0x47, 0x7F⟩` — still interpreted with status `0x90`. -/
theorem claim_C1_counterexample :
    read_track c1bytes (.loopPoint 0)
      = .ok [(Message.mk 0 144 60 127, 0), (Message.mk 0 144 69 127, 0),
             (Message.mk 0 144 71 127, 0), (Message.mk 255 0 0 0, 0)] ∧
    Message.mk 0 144 71 127 ≠ Message.common2 69 71 127 (.loopPoint 0) := by
  constructor
  · rfl
  · decide

/-! ## Claim C2 -/

/-- C2: when the `read_track` loop meets a byte `b` with `b &&& 0x80 = 0`
in state `last_status = ls`, it emits a channel message whose channel and
command are those of `ls` (`ls &&& 0x0F`, `ls &&& 0xF0`); it consumes one
data byte (`b` itself) when the command nibble of `ls` is `0xC0` or
`0xD0`, and two data bytes (`b` plus the next byte) otherwise (stated for
the default `LoopPoint` dialect, where no control-change rewriting
applies).  In particular the S3 payload
`00 90 3C 7F 10 40 7F 10 80 3C 00` followed by end-of-track yields
exactly three channel messages, the second being a note-on (command
`0x90`) with data `(0x40, 0x7F)` via running status. -/
theorem claim_C2 :
    (∀ (lt : MidiFileLoopType) (n : Nat) (bytes r2 : List Nat)
       (size total : Nat) (tick d : Int) (ls b : Nat)
       (acc : List (Message × Int)) (g : Bool),
      readVarlen bytes = some (d, b :: r2) → b < 256 → b &&& 128 = 0 →
      (ls &&& 240 = 192 ∨ ls &&& 240 = 208) →
      readTrackLoop lt (n + 1) bytes size total tick ls acc g
        = readTrackLoop lt n r2 size total (wrap32 (tick + d)) ls
            (acc ++ [(Message.mk (ls &&& 15) (ls &&& 240) b 0, wrap32 (tick + d))])
            (g && decide (0 ≤ d) && decide (tick + d < 2147483648))) ∧
    (∀ (p : Nat) (n : Nat) (bytes r3 : List Nat)
       (size total : Nat) (tick d : Int) (ls b db : Nat)
       (acc : List (Message × Int)) (g : Bool),
      readVarlen bytes = some (d, b :: db :: r3) → b < 256 → db < 256 →
      b &&& 128 = 0 →
      ¬ (ls &&& 240 = 192 ∨ ls &&& 240 = 208) →
      readTrackLoop (.loopPoint p) (n + 1) bytes size total tick ls acc g
        = readTrackLoop (.loopPoint p) n r3 size total (wrap32 (tick + d)) ls
            (acc ++ [(Message.mk (ls &&& 15) (ls &&& 240) b db, wrap32 (tick + d))])
            (g && decide (0 ≤ d) && decide (tick + d < 2147483648))) ∧
    read_track s3bytes (.loopPoint 0)
      = .ok [(Message.mk 0 144 60 127, 0), (Message.mk 0 144 64 127, 16),
             (Message.mk 0 128 60 0, 32), (Message.mk 255 0 0 0, 32)] := by
  refine ⟨?_, ?_, by rfl⟩
  · intro lt n bytes r2 size total tick d ls b acc g hv hb hm hc
    exact runStatus1_eq lt n bytes r2 size total tick d ls b acc g hv hb hm hc
  · intro p n bytes r3 size total tick d ls b db acc g hv hb hdb hm hns
    have h := runStatus2_eq (.loopPoint p) n bytes r3 size total tick d ls b db
      acc g hv hb hdb hm hns
    rw [common2_loopPoint] at h
    exact h

/-- Witness for C2: a one-data-byte running-status step from
`last_status = 0xC5` (program change, channel 5) and a two-data-byte step
from `last_status = 0x93` (note-on, channel 3). -/
theorem claim_C2_witness :
    (readTrackLoop (.loopPoint 0) (0 + 1) [0, 33] 9 9 0 197 [] true
      = readTrackLoop (.loopPoint 0) 0 [] 9 9 (wrap32 (0 + 0)) 197
          ([] ++ [(Message.mk (197 &&& 15) (197 &&& 240) 33 0, wrap32 (0 + 0))])
          (true && decide ((0 : Int) ≤ 0) && decide ((0 : Int) + 0 < 2147483648))) ∧
    (readTrackLoop (.loopPoint 0) (0 + 1) [0, 33, 44] 9 9 0 147 [] true
      = readTrackLoop (.loopPoint 0) 0 [] 9 9 (wrap32 (0 + 0)) 147
          ([] ++ [(Message.mk (147 &&& 15) (147 &&& 240) 33 44, wrap32 (0 + 0))])
          (true && decide ((0 : Int) ≤ 0) && decide ((0 : Int) + 0 < 2147483648))) :=
  ⟨claim_C2.1 (.loopPoint 0) 0 [0, 33] [] 9 9 0 0 197 33 [] true
      (by decide) (by decide) (by decide) (by decide),
   claim_C2.2.1 0 0 [0, 33, 44] [] 9 9 0 0 147 33 44 [] true
      (by decide) (by decide) (by decide) (by decide) (by decide)⟩

end RustySynth
